import Mathlib

/-!
Verification of the forwarder HTTP/HTTPS proxy against its specification.

The Go sources are embedded shallowly: pure helpers become Lean functions,
stateful code becomes explicit state passing, machine integers become Nat/Int
with explicit truncation where overflow matters, and fallible code returns
Option/Except.  External collaborators that the sources merely call
(the credentials matcher, the PAC parser, the hosts-file resolver, the
message-view dumper) are passed in as function parameters, exactly as wide as
the call sites use them.
-/

namespace Forwarder

/-- Go net/url Userinfo: a username with an optional password. -/
structure Userinfo where
  username : String
  password : Option String
deriving DecidableEq, Repr

/-- The slice of Go net/url URL that the proxy code reads and writes:
scheme, host (hostname with optional port, as one string) and optional
user-info. -/
structure URL where
  scheme : String
  host : String
  user : Option Userinfo
deriving DecidableEq, Repr

/-! ## Upstream selection (httplog.go, package forwarder)

`upstreamProxyURL` copies the configured upstream URL and, when it carries no
user-info, attaches the first match from the credentials matcher.
`CredentialsMatcher.MatchURL` is outside the embedded sources, so it is a
parameter of type URL -> Option Userinfo. -/

/-- Embeds HTTPProxy.upstreamProxyURL: copy the configured upstream proxy URL;
if its User is nil, consult creds.MatchURL and attach a match. -/
def upstreamProxyURL (creds : URL → Option Userinfo) (configUpstreamProxy : URL) :
    URL :=
  let proxyURL := configUpstreamProxy
  match proxyURL.user with
  | some _ => proxyURL
  | none =>
    match creds proxyURL with
    | some u => { proxyURL with user := some u }
    | none => proxyURL

/-- PAC upstream candidate mode, pac.Mode (mode_string.go fixes the values
DIRECT=0, PROXY=1, HTTP=2, HTTPS=3, SOCKS=4, SOCKS4=5, SOCKS5=6). -/
inductive Mode where
  | DIRECT
  | PROXY
  | HTTP
  | HTTPS
  | SOCKS
  | SOCKS4
  | SOCKS5
deriving DecidableEq, Repr

/-- A PAC upstream candidate, pac.Proxy: a mode plus host and port strings
(the struct carries no user-info field). -/
structure PacProxy where
  mode : Mode
  host : String
  port : String
deriving DecidableEq, Repr

/-- Modelled from the spec: pac.Proxy.URL() is not under src/.  Per the data
model, an upstream candidate is one of DIRECT or proxy(host, port) variants,
carrying only mode, host and port; the URL it yields therefore has the
mode-determined scheme, host:port as host, and no user-info. -/
def PacProxy.toURL (p : PacProxy) : URL :=
  let scheme :=
    match p.mode with
    | .DIRECT => ""
    | .PROXY => "http"
    | .HTTP => "http"
    | .HTTPS => "https"
    | .SOCKS => "socks"
    | .SOCKS4 => "socks4"
    | .SOCKS5 => "socks5"
  { scheme := scheme, host := p.host ++ ":" ++ p.port, user := none }

/-- Embeds HTTPProxy.pacProxy: evaluate the PAC script for the request
(result passed in as findResult), parse the first candidate (the pac parser
lives outside src/ and is passed in as parseFirst), build its URL and attach
matched credentials.  Note the source attaches a match unconditionally here;
the candidate URL never carries user-info by construction. -/
def pacProxy (creds : URL → Option Userinfo)
    (findResult : Except String String)
    (parseFirst : String → Except String PacProxy) : Except String URL :=
  match findResult with
  | .error e => .error e
  | .ok s =>
    match parseFirst s with
    | .error e => .error e
    | .ok p =>
      let proxyURL := p.toURL
      match creds proxyURL with
      | some u => .ok { proxyURL with user := some u }
      | none => .ok proxyURL

/-- Outcome of the upstream-selection switch in HTTPProxy.configureProxy. -/
inductive UpstreamSelection where
  | fromFunc
  | fromStatic (u : URL)
  | fromPAC
  | direct
deriving DecidableEq, Repr

/-- Embeds the switch in HTTPProxy.configureProxy that picks the upstream
proxy function: the custom function if configured, else the static upstream
URL (with credentials attached by upstreamProxyURL), else the PAC resolver,
else nothing (DIRECT).  F and P stand for the opaque function and resolver
types; only presence matters to the switch. -/
def configureProxySelect {F P : Type}
    (upstreamProxyFunc : Option F) (upstreamProxy : Option URL)
    (creds : URL → Option Userinfo) (pac : Option P) : UpstreamSelection :=
  match upstreamProxyFunc with
  | some _ => .fromFunc
  | none =>
    match upstreamProxy with
    | some u => .fromStatic (upstreamProxyURL creds u)
    | none =>
      match pac with
      | some _ => .fromPAC
      | none => .direct

/-! ## Proxy construction gate (httplog.go, newHTTPProxy) -/

/-- Embeds ProxyLocalhostMode.isValid: the mode must be one of the three
enumerated strings. -/
def proxyLocalhostModeIsValid (m : String) : Bool :=
  m == "deny" || m == "allow" || m == "direct"

/-- Embeds HTTPProxyConfig.Validate.  HTTPServerConfig.Validate and
validateProxyURL live outside src/ and are passed in: serverValidate is the
error (if any) of the former, validateProxyURL maps the configured upstream
URL to an error (if any).  Returns the validation error, or none on success. -/
def httpProxyConfigValidate (serverValidate : Option String)
    (validateProxyURL : Option URL → Option String)
    (protocol : String) (proxyLocalhost : String)
    (upstreamProxy : Option URL) : Option String :=
  match serverValidate with
  | some e => some e
  | none =>
    if protocol != "http" && protocol != "https" then
      some ("unsupported protocol: " ++ protocol)
    else if !proxyLocalhostModeIsValid proxyLocalhost then
      some ("unsupported proxy_localhost: " ++ proxyLocalhost)
    else
      match validateProxyURL upstreamProxy with
      | some e => some ("upstream_proxy_uri: " ++ e)
      | none => none

/-- Embeds the construction gate of newHTTPProxy: config validation, then the
rejection of a simultaneous static upstream proxy and PAC resolver.  The
remainder of newHTTPProxy (transport defaulting and configureProxy) does not
touch the mutual-exclusion property and is represented by the ok value. -/
def newHTTPProxyGate {F P : Type} (serverValidate : Option String)
    (validateProxyURL : Option URL → Option String)
    (protocol : String) (proxyLocalhost : String)
    (upstreamProxy : Option URL) (upstreamProxyFunc : Option F)
    (pr : Option P) : Except String Unit :=
  match httpProxyConfigValidate serverValidate validateProxyURL protocol
      proxyLocalhost upstreamProxy with
  | some e => .error e
  | none =>
    if upstreamProxy.isSome && pr.isSome then
      .error "cannot use both upstream proxy and PAC"
    else
      match upstreamProxyFunc with
      | _ => .ok ()

/-! ## HTTP logging (httplog/httplog.go, package httplog) -/

/-- The slice of middleware.LogEntry that the log writer reads: the request
method, the request URL split into the fields the writer uses, the trace value
from the request context (nil when absent), the response status and the
formatted duration. -/
structure LogEntry where
  method : String
  urlScheme : String
  urlHost : String
  urlPath : String
  urlRedacted : String
  trace : Option String
  status : Int
  duration : String

/-- Embeds logWriter.trace: a bracketed trace prefix when the request context
carries a trace value. -/
def tracePfx (e : LogEntry) : String :=
  match e.trace with
  | some t => "[" ++ t ++ "] "
  | none => ""

/-- Embeds logWriter.ShortURLLine: trace prefix, then
method scheme://host/path status=S duration=D. -/
def shortURLLine (e : LogEntry) : String :=
  let scheme := if e.urlScheme != "" then e.urlScheme ++ "://" else e.urlScheme
  let path :=
    if e.urlPath.length > 0 && e.urlPath.front != '/' then "/" ++ e.urlPath
    else e.urlPath
  tracePfx e ++ e.method ++ " " ++ scheme ++ e.urlHost ++ path ++
    " status=" ++ toString e.status ++ " duration=" ++ e.duration ++ "\n"

/-- Embeds logWriter.URLLine: trace prefix, then the redacted full URL. -/
def urlLine (e : LogEntry) : String :=
  tracePfx e ++ e.method ++ " " ++ e.urlRedacted ++
    " status=" ++ toString e.status ++ " duration=" ++ e.duration ++ "\n"

/-- Embeds logWriter.Dump: the message-view rendering (external package,
passed in as dump, which may fail), followed by the separator; a dump error is
reported inline as the source's error line. -/
def dumpSection (dump : LogEntry → Except String String) (e : LogEntry) : String :=
  (match dump e with
   | .ok s => s
   | .error err => "\nlogger error: " ++ err ++ "\n") ++ "\n"

/-- What one invocation of the function returned by Logger.LogFunc produces:
nothing, one formatted log record, or a panic (unknown mode). -/
inductive LogResult where
  | noOutput
  | output (s : String)
  | panicked
deriving DecidableEq, Repr

/-- Whether a log record was emitted. -/
def LogResult.emitted : LogResult → Bool
  | .output _ => true
  | _ => false

/-- Embeds Logger.LogFunc: per-mode behaviour of the returned closure on one
log entry.  dump is the message-view renderer, taking the body flag of the
log writer.  In errors mode nothing is emitted below status 500
(http.StatusInternalServerError). -/
def loggerLogFunc (mode : String) (dump : Bool → LogEntry → Except String String)
    (e : LogEntry) : LogResult :=
  match mode with
  | "" => .noOutput
  | "none" => .noOutput
  | "short-url" => .output (shortURLLine e)
  | "url" => .output (urlLine e)
  | "headers" => .output (shortURLLine e ++ dumpSection (dump false) e)
  | "body" => .output (shortURLLine e ++ dumpSection (dump true) e)
  | "errors" =>
    if e.status < 500 then .noOutput
    else .output (shortURLLine e ++ dumpSection (dump false) e)
  | _ => .panicked

/-! ## Request basic-auth injection (httplog.go, setBasicAuth) -/

/-- Go http.Header.Get: first value for the key, or the empty string. -/
def headerGet (h : List (String × String)) (k : String) : String :=
  match h.find? (fun p => p.1 == k) with
  | some p => p.2
  | none => ""

/-- Go http.Header.Set: replace the values for the key with a single value. -/
def headerSet (h : List (String × String)) (k v : String) :
    List (String × String) :=
  (k, v) :: h.filter (fun p => p.1 != k)

/-- Standard base64 alphabet used by Go encoding/base64 StdEncoding. -/
def base64Alphabet : List Char :=
  "ABCDEFGHIJKLMNOPQRSTUVWXYZabcdefghijklmnopqrstuvwxyz0123456789+/".data

/-- One base64 digit. -/
def base64Digit (n : Nat) : Char := base64Alphabet.getD n '?'

/-- Base64-encode a byte list, three bytes at a time with = padding. -/
def base64Chunks : List Nat → List Char
  | [] => []
  | [b0] => [base64Digit (b0 / 4), base64Digit (b0 % 4 * 16), '=', '=']
  | [b0, b1] =>
    [base64Digit (b0 / 4), base64Digit (b0 % 4 * 16 + b1 / 16),
     base64Digit (b1 % 16 * 4), '=']
  | b0 :: b1 :: b2 :: rest =>
    base64Digit (b0 / 4) :: base64Digit (b0 % 4 * 16 + b1 / 16) ::
      base64Digit (b1 % 16 * 4 + b2 / 64) :: base64Digit (b2 % 64) ::
        base64Chunks rest

/-- Go base64.StdEncoding.EncodeToString over the UTF-8 bytes of a string. -/
def base64Encode (s : String) : String :=
  ⟨base64Chunks (s.toUTF8.toList.map (fun b => b.toNat))⟩

/-- Go http.Request.SetBasicAuth header value: Basic base64(user:pass). -/
def basicAuthValue (user pass : String) : String :=
  "Basic " ++ base64Encode (user ++ ":" ++ pass)

/-- The slice of http.Request that setBasicAuth reads and writes. -/
structure Request where
  url : URL
  header : List (String × String)
deriving DecidableEq, Repr

/-- Embeds HTTPProxy.setBasicAuth: when the Authorization header is empty,
attach the credentials matched for the request URL (password defaulting to
the empty string); always return a nil error (the second component). -/
def setBasicAuth (creds : URL → Option Userinfo) (req : Request) :
    Request × Option String :=
  if headerGet req.header "Authorization" == "" then
    match creds req.url with
    | some u =>
      ({ req with
          header := headerSet req.header "Authorization"
            (basicAuthValue u.username (u.password.getD "")) }, none)
    | none => (req, none)
  else (req, none)

/-! ## Localhost classification (httplog.go, isLocalhost)

The classifier consults localhostResolver, a resolver built by nopResolver()
that never dials and looks up names only in the local hosts file.  That
resolver is outside the embedded sources, so the hosts-file lookup is a
parameter; by construction the classification has no other name-resolution
input, in particular no network DNS. -/

/-- Go net.IP as the proxy uses it: an IPv4 address (four octets) or an IPv6
address (eight 16-bit groups). -/
inductive IP where
  | v4 (a b c d : Nat)
  | v6 (groups : List Nat)
deriving DecidableEq, Repr

/-- Go net.IP.IsLoopback: an IPv4 address in 127.0.0.0/8, or the IPv6
loopback ::1. -/
def IP.isLoopback : IP → Bool
  | .v4 a _ _ _ => a == 127
  | .v6 g => g == [0, 0, 0, 0, 0, 0, 0, 1]

/-- Split a character list on every occurrence of a separator character. -/
def splitOnChar (sep : Char) : List Char → List (List Char)
  | [] => [[]]
  | c :: rest =>
    match splitOnChar sep rest with
    | [] => [[c]]
    | t :: ts => if c == sep then [] :: t :: ts else (c :: t) :: ts

/-- Split a character list at the first occurrence of a double colon,
when there is one. -/
def splitSeq2 : List Char → Option (List Char × List Char)
  | [] => none
  | ':' :: ':' :: rest => some ([], rest)
  | c :: rest => (splitSeq2 rest).map (fun p => (c :: p.1, p.2))

/-- One dotted-quad field: decimal digits, value at most 255, at most three
digits, no leading zeros (as Go net.ParseIP rejects them). -/
def parseV4Field (s : List Char) : Option Nat :=
  if s.isEmpty then none
  else if s.length > 1 && s.head? == some '0' then none
  else if s.all (fun c => c.isDigit) && s.length ≤ 3 then
    let n := s.foldl (fun acc c => acc * 10 + (c.toNat - 48)) 0
    if n ≤ 255 then some n else none
  else none

/-- Dotted-quad IPv4 parsing, as in Go net.ParseIP. -/
def parseIPv4 (cs : List Char) : Option IP :=
  match splitOnChar '.' cs with
  | [a, b, c, d] =>
    match parseV4Field a, parseV4Field b, parseV4Field c, parseV4Field d with
    | some x, some y, some z, some w => some (.v4 x y z w)
    | _, _, _, _ => none
  | _ => none

/-- Value of one hexadecimal digit, or none. -/
def hexVal (c : Char) : Option Nat :=
  if c.isDigit then some (c.toNat - 48)
  else if 'a' ≤ c && c ≤ 'f' then some (c.toNat - 87)
  else if 'A' ≤ c && c ≤ 'F' then some (c.toNat - 55)
  else none

/-- One IPv6 group: one to four hexadecimal digits. -/
def parseHexGroup (s : List Char) : Option Nat :=
  if s.isEmpty || s.length > 4 then none
  else s.foldl (fun acc c =>
    match acc, hexVal c with
    | some a, some v => some (a * 16 + v)
    | _, _ => none) (some 0)

/-- IPv6 parsing in the forms the proxy encounters: eight colon-separated hex
groups, or a form with one double-colon compression (embedded IPv4 tails are
not modelled). -/
def parseIPv6 (cs : List Char) : Option IP :=
  match splitSeq2 cs with
  | none =>
    let gs := splitOnChar ':' cs
    if gs.length == 8 then (gs.mapM parseHexGroup).map IP.v6 else none
  | some (l, r) =>
    if (splitSeq2 r).isSome then none
    else
      let ls := if l.isEmpty then [] else splitOnChar ':' l
      let rs := if r.isEmpty then [] else splitOnChar ':' r
      if ls.length + rs.length ≤ 7 then
        match ls.mapM parseHexGroup, rs.mapM parseHexGroup with
        | some lg, some rg =>
          some (.v6 (lg ++ List.replicate (8 - lg.length - rg.length) 0 ++ rg))
        | _, _ => none
      else none

/-- Go net.ParseIP: the first dot or colon decides between the IPv4 and IPv6
grammar. -/
def parseIP (s : String) : Option IP :=
  match s.data.find? (fun c => c == '.' || c == ':') with
  | some '.' => parseIPv4 s.data
  | some _ => parseIPv6 s.data
  | none => none

/-- Embeds HTTPProxy.isLocalhost: true for the literal hostname localhost, or
when the hosts-file lookup succeeds and its first address parses to a
loopback IP.  lookupHost is localhostResolver.LookupHost (none on error; on
success Go's LookupHost returns a non-empty list, which the source indexes at
0). -/
def isLocalhost (lookupHost : String → Option (List String))
    (hostname : String) : Bool :=
  if hostname == "localhost" then true
  else
    match lookupHost hostname with
    | some addrs =>
      match addrs.head? with
      | some a =>
        match parseIP a with
        | some ip => ip.isLoopback
        | none => false
      | none => false
    | none => false

/-! ## CONNECT-over-HTTPS-proxy status passthrough (httpexpect Client.do)

Client.do retries the round-trip error of an HTTPS request against the table
of standard HTTP status phrases: if the error text equals the phrase of some
code in 400..599, a response with exactly that code is synthesized. -/

/-- Go net/http StatusText restricted to the 400..599 range scanned by
Client.do; codes without a registered phrase map to the empty string. -/
def statusText (code : Nat) : String :=
  match code with
  | 400 => "Bad Request"
  | 401 => "Unauthorized"
  | 402 => "Payment Required"
  | 403 => "Forbidden"
  | 404 => "Not Found"
  | 405 => "Method Not Allowed"
  | 406 => "Not Acceptable"
  | 407 => "Proxy Authentication Required"
  | 408 => "Request Timeout"
  | 409 => "Conflict"
  | 410 => "Gone"
  | 411 => "Length Required"
  | 412 => "Precondition Failed"
  | 413 => "Request Entity Too Large"
  | 414 => "Request URI Too Long"
  | 415 => "Unsupported Media Type"
  | 416 => "Requested Range Not Satisfiable"
  | 417 => "Expectation Failed"
  | 418 => "I\x27m a teapot"
  | 421 => "Misdirected Request"
  | 422 => "Unprocessable Entity"
  | 423 => "Locked"
  | 424 => "Failed Dependency"
  | 425 => "Too Early"
  | 426 => "Upgrade Required"
  | 428 => "Precondition Required"
  | 429 => "Too Many Requests"
  | 431 => "Request Header Fields Too Large"
  | 451 => "Unavailable For Legal Reasons"
  | 500 => "Internal Server Error"
  | 501 => "Not Implemented"
  | 502 => "Bad Gateway"
  | 503 => "Service Unavailable"
  | 504 => "Gateway Timeout"
  | 505 => "HTTP Version Not Supported"
  | 506 => "Variant Also Negotiates"
  | 507 => "Insufficient Storage"
  | 508 => "Loop Detected"
  | 510 => "Not Extended"
  | 511 => "Network Authentication Required"
  | _ => ""

/-- The loop in Client.do: the first i in 400..599 whose status phrase equals
the error message. -/
def findStatusText (msg : String) : Option Nat :=
  (List.range' 400 200).find? (fun i => statusText i == msg)

/-- What Client.do hands back: the transport response untouched, or a
synthesized response (status code, status phrase, HTTP protocol major/minor
version, empty-body flag). -/
inductive DoResponse where
  | passthrough
  | synthesized (statusCode : Nat) (status : String)
      (protoMajor protoMinor : Nat) (bodyEmpty : Bool)
deriving DecidableEq, Repr

/-- Embeds Client.do: on a transport error for an https-scheme request whose
message equals a standard status phrase of 400..599, synthesize an HTTP/1.1
response with that code and an empty body; otherwise propagate the
round-trip outcome unchanged. -/
def clientDo (scheme : String) (rt : Except String Unit) :
    Except String DoResponse :=
  match rt with
  | .ok _ => .ok .passthrough
  | .error msg =>
    if scheme == "https" then
      match findStatusText msg with
      | some i => .ok (.synthesized i (statusText i) 1 1 true)
      | none => .error msg
    else .error msg

/-! ## Context identity (internal/martian/context.go)

A context records the value of the process-wide atomic counter after
nextID.Add(1), and a hash taken from the creation-time clock truncated to 32
bits.  Context.ID formats them as the decimal counter, a dash, and the hash as
eight-padded lowercase hex. -/

/-- The character of one decimal digit. -/
def digitChar (d : Nat) : Char :=
  match d with
  | 0 => '0'
  | 1 => '1'
  | 2 => '2'
  | 3 => '3'
  | 4 => '4'
  | 5 => '5'
  | 6 => '6'
  | 7 => '7'
  | 8 => '8'
  | 9 => '9'
  | _ => '*'

/-- The character of one lowercase hexadecimal digit. -/
def hexDigitChar (d : Nat) : Char :=
  match d with
  | 10 => 'a'
  | 11 => 'b'
  | 12 => 'c'
  | 13 => 'd'
  | 14 => 'e'
  | 15 => 'f'
  | _ => digitChar d

/-- Decimal representation of a natural number, as fmt %d prints it. -/
def decRep (n : Nat) : List Char :=
  if n = 0 then ['0'] else ((Nat.digits 10 n).map digitChar).reverse

/-- Hexadecimal representation of a natural number, as fmt %x prints it. -/
def hexRep (n : Nat) : List Char :=
  if n = 0 then ['0'] else ((Nat.digits 16 n).map hexDigitChar).reverse

/-- Zero-padding to eight characters, as the 08 width flag prints it. -/
def pad8 (l : List Char) : List Char :=
  List.replicate (8 - l.length) '0' ++ l

/-- The identity-bearing fields of martian.Context: the counter value n and
the 32-bit creation-time hash. -/
structure Ctx where
  n : Nat
  hash : Nat
deriving DecidableEq, Repr

/-- Embeds Context.ID: Sprintf of the counter in decimal, a dash, and the
hash in eight-padded lowercase hex. -/
def Ctx.ID (c : Ctx) : String :=
  ⟨decRep c.n ++ '-' :: pad8 (hexRep c.hash)⟩

/-- Embeds withSession for the creation numbered by counter: nextID is an
atomic.Uint64, so Add(1) returns counter + 1 wrapped modulo 2^64, and
uint32(time.Now().UnixNano()) keeps the low 32 bits of the clock reading,
i.e. its value mod 2^32 (Int.emod is non-negative here). -/
def withSession (counter : Nat) (nowUnixNano : Int) : Ctx :=
  { n := (counter + 1) % 2 ^ 64, hash := (nowUnixNano.emod (2 ^ 32)).toNat }

/-- The k-th context creation in a process: k increments of the atomic
counter have happened before this one (so its n is (k + 1) mod 2^64), and
times k is the clock reading at this creation. -/
def mkCtx (times : Nat → Int) (k : Nat) : Ctx :=
  withSession k (times k)

/-- Numeric value of a decimal digit character. -/
def charDigitVal (c : Char) : Nat := c.toNat - 48

/-- Reads the counter component back out of a formatted context ID: the
decimal digits before the first dash. -/
def decodeCounter (cs : List Char) : Nat :=
  Nat.ofDigits 10 (((cs.takeWhile (fun c => c != '-')).map charDigitVal).reverse)

/-! ## Session hijack exclusivity (internal/martian/context.go)

Session.Hijack and Session.HijackResponseWriter run under the session lock,
so their interleaving is a sequence; the session state they touch is the
hijacked flag plus which of conn and rw is present. -/

/-- A call to one of the two hijack entry points.  For Hijack on a
response-writer session, rcOk says whether http.NewResponseController.Hijack
succeeds (that call is outside the embedded sources). -/
inductive HijackCall where
  | hijack (rcOk : Bool)
  | hijackRW
deriving DecidableEq, Repr

/-- How one hijack call returns: success, an error, or the panic raised when
the session has neither a connection nor a response writer. -/
inductive HijackOutcome where
  | ok
  | err
  | panicked
deriving DecidableEq, Repr

/-- The session state the hijack entry points read and write. -/
structure SessionSt where
  hijacked : Bool
  hasConn : Bool
  hasRW : Bool
deriving DecidableEq, Repr

/-- Embeds Session.Hijack and Session.HijackResponseWriter.  Hijack: an
already-hijacked session errors before the deferred flag update is armed;
otherwise the deferred update stores err == nil, so the conn path sets the
flag, the response-controller path sets it exactly on success, and the panic
path (no conn, no rw) runs the deferred update with a nil err and so also
sets it.  HijackResponseWriter: error if already hijacked; set the flag and
succeed if a response writer is present; otherwise error leaving the flag
alone. -/
def stepHijack (s : SessionSt) : HijackCall → SessionSt × HijackOutcome
  | .hijack rcOk =>
    if s.hijacked then (s, .err)
    else if s.hasConn then ({ s with hijacked := true }, .ok)
    else if s.hasRW then
      if rcOk then ({ s with hijacked := true }, .ok)
      else ({ s with hijacked := false }, .err)
    else ({ s with hijacked := true }, .panicked)
  | .hijackRW =>
    if s.hijacked then (s, .err)
    else if s.hasRW then ({ s with hijacked := true }, .ok)
    else (s, .err)

/-- The outcomes of a sequence of hijack calls on one session. -/
def runHijack (s : SessionSt) : List HijackCall → List HijackOutcome
  | [] => []
  | c :: cs =>
    let r := stepHijack s c
    r.2 :: runHijack r.1 cs

end Forwarder

namespace Forwarder

/-- C3: whenever upstream selection (static upstream URL or PAC evaluation)
yields a proxy URL without user-info, the credential matcher is consulted with
that URL and, on a match, the matched user-info is attached; a selected proxy
URL that already carries user-info keeps it unchanged (on the PAC path the
candidate URL never carries user-info, so the clause is vacuous there). -/
theorem credential_attachment_on_selected_proxy_url :
    (∀ (creds : URL → Option Userinfo) (cfg : URL) (ui : Userinfo),
      cfg.user = some ui → upstreamProxyURL creds cfg = cfg) ∧
    (∀ (creds : URL → Option Userinfo) (cfg : URL) (u : Userinfo),
      cfg.user = none → creds cfg = some u →
        upstreamProxyURL creds cfg = { cfg with user := some u }) ∧
    (∀ (creds : URL → Option Userinfo) (cfg : URL),
      cfg.user = none → creds cfg = none →
        upstreamProxyURL creds cfg = cfg) ∧
    (∀ (p : PacProxy), p.toURL.user = none) ∧
    (∀ (creds : URL → Option Userinfo) (s : String)
        (parseFirst : String → Except String PacProxy) (p : PacProxy),
      parseFirst s = .ok p →
        pacProxy creds (.ok s) parseFirst =
          .ok (match creds p.toURL with
               | some u => { p.toURL with user := some u }
               | none => p.toURL)) := by
  refine ⟨?_, ?_, ?_, ?_, ?_⟩
  · intro creds cfg ui h
    simp [upstreamProxyURL, h]
  · intro creds cfg u h hc
    simp [upstreamProxyURL, h, hc]
  · intro creds cfg h hc
    simp [upstreamProxyURL, h, hc]
  · intro p
    rfl
  · intro creds s parseFirst p h
    simp only [pacProxy, h]
    cases hc : creds p.toURL <;> simp [hc]

/-- Closed witness for C3 at a concrete matcher and URLs. -/
theorem credential_attachment_on_selected_proxy_url_witness :
    upstreamProxyURL
        (fun url => if url.host == "p1:8080" then some ⟨"alice", some "pw"⟩ else none)
        ⟨"http", "p1:8080", none⟩ =
      ⟨"http", "p1:8080", some ⟨"alice", some "pw"⟩⟩ ∧
    upstreamProxyURL
        (fun url => if url.host == "p1:8080" then some ⟨"alice", some "pw"⟩ else none)
        ⟨"http", "p2:8080", some ⟨"bob", none⟩⟩ =
      ⟨"http", "p2:8080", some ⟨"bob", none⟩⟩ ∧
    pacProxy
        (fun url => if url.host == "p1:8080" then some ⟨"alice", some "pw"⟩ else none)
        (.ok "PROXY p1:8080")
        (fun _ => .ok ⟨.PROXY, "p1", "8080"⟩) =
      .ok ⟨"http", "p1:8080", some ⟨"alice", some "pw"⟩⟩ := by
  refine ⟨?_, ?_, ?_⟩
  · exact credential_attachment_on_selected_proxy_url.2.1
      (fun url => if url.host == "p1:8080" then some ⟨"alice", some "pw"⟩ else none)
      ⟨"http", "p1:8080", none⟩ ⟨"alice", some "pw"⟩ rfl (by decide)
  · exact credential_attachment_on_selected_proxy_url.1
      (fun url => if url.host == "p1:8080" then some ⟨"alice", some "pw"⟩ else none)
      ⟨"http", "p2:8080", some ⟨"bob", none⟩⟩ ⟨"bob", none⟩ rfl
  · have h := credential_attachment_on_selected_proxy_url.2.2.2.2
      (fun url => if url.host == "p1:8080" then some ⟨"alice", some "pw"⟩ else none)
      "PROXY p1:8080" (fun _ => .ok ⟨.PROXY, "p1", "8080"⟩) ⟨.PROXY, "p1", "8080"⟩ rfl
    rw [h]
    rfl

/-- C4: upstream selection uses exactly the first applicable source in the
fixed priority order: custom upstream proxy function, else static upstream
proxy URL, else PAC resolver, else DIRECT. -/
theorem upstream_selection_priority (F P : Type)
    (f : Option F) (u : Option URL) (creds : URL → Option Userinfo)
    (pac : Option P) :
    (∀ x, f = some x → configureProxySelect f u creds pac = .fromFunc) ∧
    (f = none → ∀ v, u = some v →
      configureProxySelect f u creds pac = .fromStatic (upstreamProxyURL creds v)) ∧
    (f = none → u = none → ∀ q, pac = some q →
      configureProxySelect f u creds pac = .fromPAC) ∧
    (f = none → u = none → pac = none →
      configureProxySelect f u creds pac = .direct) := by
  refine ⟨?_, ?_, ?_, ?_⟩
  · intro x hf
    simp [configureProxySelect, hf]
  · intro hf v hu
    simp [configureProxySelect, hf, hu]
  · intro hf hu q hp
    simp [configureProxySelect, hf, hu, hp]
  · intro hf hu hp
    simp [configureProxySelect, hf, hu, hp]

/-- Closed witness for C4: all four priority cases at concrete inputs. -/
theorem upstream_selection_priority_witness :
    configureProxySelect (some ()) (some ⟨"http", "u:1", none⟩) (fun _ => none)
        (some ()) = .fromFunc ∧
    configureProxySelect (F := Unit) none (some ⟨"http", "u:1", none⟩)
        (fun _ => none) (some ()) =
      .fromStatic (upstreamProxyURL (fun _ => none) ⟨"http", "u:1", none⟩) ∧
    configureProxySelect (F := Unit) none none (fun _ => none) (some ()) =
      .fromPAC ∧
    configureProxySelect (F := Unit) (P := Unit) none none (fun _ => none) none =
      .direct := by
  refine ⟨?_, ?_, ?_, ?_⟩
  · exact (upstream_selection_priority Unit Unit (some ())
      (some ⟨"http", "u:1", none⟩) (fun _ => none) (some ())).1 () rfl
  · exact (upstream_selection_priority Unit Unit none
      (some ⟨"http", "u:1", none⟩) (fun _ => none) (some ())).2.1 rfl
      ⟨"http", "u:1", none⟩ rfl
  · exact (upstream_selection_priority Unit Unit none none
      (fun _ => none) (some ())).2.2.1 rfl rfl () rfl
  · exact (upstream_selection_priority Unit Unit none none
      (fun _ => none) none).2.2.2 rfl rfl rfl

/-- C5: constructing an HTTP proxy with both a static upstream proxy URL and
a PAC resolver fails with an error (no proxy value is returned); any
construction with at most one of upstream URL, PAC resolver and upstream
function active passes this gate, provided config validation succeeds. -/
theorem pac_and_upstream_mutually_exclusive (F P : Type) :
    (∀ (sv : Option String) (vurl : Option URL → Option String)
        (prot plh : String) (uu : URL) (pp : P) (f : Option F),
      ∃ e, newHTTPProxyGate sv vurl prot plh (some uu) f (some pp) = .error e) ∧
    (∀ (sv : Option String) (vurl : Option URL → Option String)
        (prot plh : String) (u : Option URL) (f : Option F) (p : Option P),
      httpProxyConfigValidate sv vurl prot plh u = none →
      u.isSome.toNat + p.isSome.toNat + f.isSome.toNat ≤ 1 →
      newHTTPProxyGate sv vurl prot plh u f p = .ok ()) := by
  constructor
  · intro sv vurl prot plh uu pp f
    unfold newHTTPProxyGate
    cases hv : httpProxyConfigValidate sv vurl prot plh (some uu) with
    | some e => exact ⟨e, rfl⟩
    | none =>
      refine ⟨"cannot use both upstream proxy and PAC", ?_⟩
      simp
  · intro sv vurl prot plh u f p hv hone
    unfold newHTTPProxyGate
    rw [hv]
    have hnb : ¬(u.isSome && p.isSome) = true := by
      intro hb
      rw [Bool.and_eq_true] at hb
      rw [hb.1, hb.2] at hone
      simp [Bool.toNat] at hone
      omega
    simp only [hnb, if_false]
    cases f <;> rfl

/-- Closed witness for C5: both-configured fails, single-source passes. -/
theorem pac_and_upstream_mutually_exclusive_witness :
    (∃ e, newHTTPProxyGate (F := Unit) none (fun _ => none) "http" "deny"
        (some ⟨"http", "u:1", none⟩) none (some ()) = .error e) ∧
    newHTTPProxyGate (F := Unit) (P := Unit) none (fun _ => none) "http" "deny"
        (some ⟨"http", "u:1", none⟩) none none = .ok () := by
  constructor
  · exact (pac_and_upstream_mutually_exclusive Unit Unit).1 none (fun _ => none)
      "http" "deny" ⟨"http", "u:1", none⟩ () none
  · exact (pac_and_upstream_mutually_exclusive Unit Unit).2 none (fun _ => none)
      "http" "deny" (some ⟨"http", "u:1", none⟩) none none (by decide) (by decide)

end Forwarder

namespace Forwarder

/-- C9: with HTTP log mode errors, the logger emits output for an exchange if
and only if the exchange's response status is at least 500; exchanges with a
status below 500 produce no log output in this mode. -/
theorem errors_mode_logs_iff_status_at_least_500
    (dump : Bool → LogEntry → Except String String) (e : LogEntry) :
    (loggerLogFunc "errors" dump e).emitted = decide ((500 : Int) ≤ e.status) := by
  unfold loggerLogFunc
  rcases lt_or_le e.status 500 with h | h
  · rw [if_pos h]
    simp [LogResult.emitted, not_le.mpr h]
  · rw [if_neg (not_lt.mpr h)]
    simp [LogResult.emitted, h]

/-- C10: setBasicAuth leaves a request with a non-empty Authorization header
entirely unchanged; on an empty (absent) header it sets basic-auth
credentials exactly when the credential matcher matches the request URL; and
it always returns a nil error. -/
theorem set_basic_auth_frame (creds : URL → Option Userinfo) (req : Request) :
    (headerGet req.header "Authorization" ≠ "" →
      setBasicAuth creds req = (req, none)) ∧
    (headerGet req.header "Authorization" = "" →
      (creds req.url = none → setBasicAuth creds req = (req, none)) ∧
      (∀ u, creds req.url = some u →
        setBasicAuth creds req =
          ({ req with
              header := headerSet req.header "Authorization"
                (basicAuthValue u.username (u.password.getD "")) }, none))) ∧
    (setBasicAuth creds req).2 = none := by
  refine ⟨?_, ?_, ?_⟩
  · intro h
    simp [setBasicAuth, h]
  · intro h
    constructor
    · intro hc
      simp [setBasicAuth, h, hc]
    · intro u hc
      simp [setBasicAuth, h, hc]
  · unfold setBasicAuth
    split
    · cases creds req.url <;> rfl
    · rfl

/-- Closed witness for C10: a request with an Authorization header already
set is untouched; one without gets the matched credentials; both return nil. -/
theorem set_basic_auth_frame_witness :
    setBasicAuth
        (fun url => if url.host == "example.com" then some ⟨"alice", some "pw"⟩ else none)
        ⟨⟨"http", "example.com", none⟩, [("Authorization", "Bearer tok")]⟩ =
      (⟨⟨"http", "example.com", none⟩, [("Authorization", "Bearer tok")]⟩, none) ∧
    setBasicAuth
        (fun url => if url.host == "example.com" then some ⟨"alice", some "pw"⟩ else none)
        ⟨⟨"http", "example.com", none⟩, []⟩ =
      (⟨⟨"http", "example.com", none⟩,
        headerSet [] "Authorization" (basicAuthValue "alice" "pw")⟩, none) := by
  constructor
  · exact (set_basic_auth_frame
      (fun url => if url.host == "example.com" then some ⟨"alice", some "pw"⟩ else none)
      ⟨⟨"http", "example.com", none⟩, [("Authorization", "Bearer tok")]⟩).1 (by decide)
  · exact ((set_basic_auth_frame
      (fun url => if url.host == "example.com" then some ⟨"alice", some "pw"⟩ else none)
      ⟨⟨"http", "example.com", none⟩, []⟩).2.1 (by decide)).2
      ⟨"alice", some "pw"⟩ (by decide)

end Forwarder

namespace Forwarder

/-- C2: the localhost classifier returns true iff the hostname is the literal
localhost, or the hosts-file lookup of the hostname returns a first address
parsing to a loopback IP; a hostname absent from the hosts file is never
classified localhost (the classifier has no DNS input at all). -/
theorem localhost_classification
    (lookupHost : String → Option (List String)) (h : String) :
    (isLocalhost lookupHost h = true ↔
      (h = "localhost" ∨
        ∃ addrs a ip, lookupHost h = some addrs ∧ addrs.head? = some a ∧
          parseIP a = some ip ∧ ip.isLoopback = true)) ∧
    (h ≠ "localhost" → lookupHost h = none →
      isLocalhost lookupHost h = false) := by
  constructor
  · by_cases hh : h = "localhost"
    · constructor
      · intro _
        exact Or.inl hh
      · intro _
        simp [isLocalhost, hh]
    · rw [isLocalhost, if_neg (by simpa using hh)]
      constructor
      · intro hl
        rcases hsome : lookupHost h with _ | addrs
        · simp [hsome] at hl
        · rcases hhead : addrs.head? with _ | a
          · simp [hsome, hhead] at hl
          · rcases hip : parseIP a with _ | ip
            · simp [hsome, hhead, hip] at hl
            · simp only [hsome, hhead, hip] at hl
              exact Or.inr ⟨addrs, a, ip, rfl, hhead, hip, hl⟩
      · rintro (hcon | ⟨addrs, a, ip, hsome, hhead, hip, hloop⟩)
        · exact absurd hcon hh
        · simp [hsome, hhead, hip, hloop]
  · intro h1 h2
    rw [isLocalhost, if_neg (by simpa using h1), h2]

/-- Closed witness for C2: loopback hosts-file entries (IPv4, odd 127/8
address, IPv6 ::1) and the literal localhost classify true; a name with no
hosts-file entry classifies false. -/
theorem localhost_classification_witness :
    isLocalhost
      (fun hn =>
        if hn == "printer.local" then some ["127.0.0.1"]
        else if hn == "v6host" then some ["::1"]
        else if hn == "odd.local" then some ["127.99.0.5"] else none)
      "printer.local" = true ∧
    isLocalhost
      (fun hn =>
        if hn == "printer.local" then some ["127.0.0.1"]
        else if hn == "v6host" then some ["::1"]
        else if hn == "odd.local" then some ["127.99.0.5"] else none)
      "v6host" = true ∧
    isLocalhost
      (fun hn =>
        if hn == "printer.local" then some ["127.0.0.1"]
        else if hn == "v6host" then some ["::1"]
        else if hn == "odd.local" then some ["127.99.0.5"] else none)
      "odd.local" = true ∧
    isLocalhost
      (fun hn =>
        if hn == "printer.local" then some ["127.0.0.1"]
        else if hn == "v6host" then some ["::1"]
        else if hn == "odd.local" then some ["127.99.0.5"] else none)
      "localhost" = true ∧
    isLocalhost
      (fun hn =>
        if hn == "printer.local" then some ["127.0.0.1"]
        else if hn == "v6host" then some ["::1"]
        else if hn == "odd.local" then some ["127.99.0.5"] else none)
      "example.com" = false := by
  refine ⟨?_, ?_, ?_, ?_, ?_⟩
  · exact (localhost_classification _ "printer.local").1.mpr
      (Or.inr ⟨["127.0.0.1"], "127.0.0.1", .v4 127 0 0 1, by decide, rfl, by decide, rfl⟩)
  · exact (localhost_classification _ "v6host").1.mpr
      (Or.inr ⟨["::1"], "::1", .v6 [0, 0, 0, 0, 0, 0, 0, 1], by decide, rfl, by decide, rfl⟩)
  · exact (localhost_classification _ "odd.local").1.mpr
      (Or.inr ⟨["127.99.0.5"], "127.99.0.5", .v4 127 99 0 5, by decide, rfl, by decide, rfl⟩)
  · exact (localhost_classification _ "localhost").1.mpr (Or.inl rfl)
  · exact (localhost_classification _ "example.com").2 (by decide) (by decide)

end Forwarder

namespace Forwarder

set_option maxRecDepth 10000 in
/-- The scan in Client.do finds exactly the code whose phrase the message
equals: registered phrases in 400..599 are pairwise distinct, so the first
match of statusText j is j itself. -/
theorem findStatusText_statusText :
    ∀ j, j < 600 → 400 ≤ j → statusText j ≠ "" →
      findStatusText (statusText j) = some j := by decide

/-- C1: for an HTTPS-scheme request whose round-trip fails with an error whose
message equals the standard status phrase of some code in 400..599, Client.do
returns a synthesized HTTP/1.1 response carrying exactly that status code with
an empty body, rather than propagating the error. -/
theorem https_error_status_phrase_synthesis (msg : String) (j : Nat)
    (hlo : 400 ≤ j) (hhi : j < 600) (hne : statusText j ≠ "")
    (hmsg : msg = statusText j) :
    clientDo "https" (.error msg) =
      .ok (.synthesized j (statusText j) 1 1 true) := by
  subst hmsg
  have hf := findStatusText_statusText j hhi hlo hne
  simp [clientDo, hf]

/-- Closed witness for C1: an upstream 503 rejection surfaces as a
synthesized 503, not as an error. -/
theorem https_error_status_phrase_synthesis_witness :
    clientDo "https" (.error "Service Unavailable") =
      .ok (.synthesized 503 "Service Unavailable" 1 1 true) :=
  https_error_status_phrase_synthesis "Service Unavailable" 503
    (by decide) (by decide) (by decide) rfl

end Forwarder

namespace Forwarder

/-- Decimal digit characters are never the dash separator. -/
theorem digitChar_ne_dash (d : Nat) : digitChar d ≠ '-' := by
  unfold digitChar
  split <;> decide

/-- charDigitVal undoes digitChar on proper digits. -/
theorem charDigitVal_digitChar (d : Nat) (h : d < 10) :
    charDigitVal (digitChar d) = d := by
  interval_cases d <;> decide

/-- takeWhile up to the first dash recovers a dash-free prefix. -/
theorem takeWhile_append_dash (l r : List Char) (hl : ∀ c ∈ l, c ≠ '-') :
    (l ++ '-' :: r).takeWhile (fun c => c != '-') = l := by
  induction l with
  | nil => simp [List.takeWhile_cons]
  | cons a as ih =>
    have ha : a ≠ '-' := hl a (List.mem_cons_self a as)
    have hbne : (a != '-') = true := bne_iff_ne.mpr ha
    simp only [List.cons_append, List.takeWhile_cons, hbne, if_true]
    rw [ih (fun c hc => hl c (List.mem_cons_of_mem a hc))]

/-- The decimal representation contains no dash. -/
theorem decRep_no_dash (n : Nat) : ∀ c ∈ decRep n, c ≠ '-' := by
  unfold decRep
  split
  · intro c hc
    simp only [List.mem_singleton] at hc
    subst hc
    decide
  · intro c hc
    rw [List.mem_reverse, List.mem_map] at hc
    obtain ⟨d, _, rfl⟩ := hc
    exact digitChar_ne_dash d

/-- Reading the counter back from the formatted ID returns the counter. -/
theorem decodeCounter_decRep (n : Nat) (rest : List Char) :
    decodeCounter (decRep n ++ '-' :: rest) = n := by
  unfold decodeCounter
  rw [takeWhile_append_dash _ _ (decRep_no_dash n)]
  by_cases hn : n = 0
  · subst hn
    decide
  · unfold decRep
    rw [if_neg hn, List.map_reverse, List.reverse_reverse, List.map_map]
    have h10 : ∀ d ∈ Nat.digits 10 n, (charDigitVal ∘ digitChar) d = d :=
      fun d hd => charDigitVal_digitChar d (Nat.digits_lt_base (by norm_num) hd)
    rw [List.map_congr_left h10]
    simpa using Nat.ofDigits_digits 10 n

/-- Equal formatted IDs force equal counters. -/
theorem Ctx.ID_inj_counter {c1 c2 : Ctx} (h : c1.ID = c2.ID) : c1.n = c2.n := by
  have hdata : decRep c1.n ++ '-' :: pad8 (hexRep c1.hash) =
      decRep c2.n ++ '-' :: pad8 (hexRep c2.hash) := by
    have hd := congrArg String.data h
    simpa [Ctx.ID] using hd
  calc c1.n
      = decodeCounter (decRep c1.n ++ '-' :: pad8 (hexRep c1.hash)) :=
        (decodeCounter_decRep _ _).symm
    _ = decodeCounter (decRep c2.n ++ '-' :: pad8 (hexRep c2.hash)) := by
        rw [hdata]
    _ = c2.n := decodeCounter_decRep _ _

/-- C6 counterexample: the counter is a uint64 and wraps, so creation 0 and
creation 2^64 receive the same counter value 1; at equal clock readings their
formatted IDs coincide, refuting distinctness over all pairs of creations. -/
theorem context_ids_collide_at_counter_wrap :
    (0 : Nat) ≠ 2 ^ 64 ∧
    (mkCtx (fun _ => 0) 0).ID = (mkCtx (fun _ => 0) (2 ^ 64)).ID := by
  constructor
  · decide
  · have h : mkCtx (fun _ => 0) 0 = mkCtx (fun _ => 0) (2 ^ 64) := by decide
    rw [h]

/-- C6 amended: distinct context creations within one process yield distinct
string-form IDs as long as both creation ordinals lie below 2^64, i.e. before
the 64-bit counter wraps; the clock readings do not matter. -/
theorem context_ids_distinct_before_wrap (times : Nat → Int) (i j : Nat)
    (hij : i ≠ j) (hi : i < 2 ^ 64) (hj : j < 2 ^ 64) :
    (mkCtx times i).ID ≠ (mkCtx times j).ID := by
  intro h
  have hn := Ctx.ID_inj_counter h
  simp only [mkCtx, withSession] at hn
  omega

/-- Closed witness for the amended C6: the first two creations of a process
have different IDs. -/
theorem context_ids_distinct_before_wrap_witness :
    (mkCtx (fun _ => 0) 0).ID ≠ (mkCtx (fun _ => 0) 1).ID :=
  context_ids_distinct_before_wrap (fun _ => 0) 0 1 (by decide) (by decide)
    (by decide)

/-- C7 counterexample: the 32-bit salt is taken from the clock at each
creation, so two contexts of the same process can carry different salts; at
clock readings 0 and 1 the salts are 0 and 1. -/
theorem context_salt_varies_within_process :
    (mkCtx (fun k => (k : Int)) 0).hash ≠ (mkCtx (fun k => (k : Int)) 1).hash := by
  decide

/-- C7 amended: every context ID combines an integer that strictly increases
with creation order while the 64-bit counter has not wrapped, and a 32-bit
salt derived from the creation-time clock (UnixNano truncated mod 2^32); the
salt is per-creation, not a process constant. -/
theorem context_id_monotone_counter_time_salt (times : Nat → Int)
    (i j k : Nat) (hij : i < j) (hwrap : j + 1 < 2 ^ 64) :
    (mkCtx times i).n < (mkCtx times j).n ∧
    (mkCtx times k).hash = ((times k).emod (2 ^ 32)).toNat ∧
    (mkCtx times k).hash < 2 ^ 32 ∧
    (mkCtx times k).ID =
      ⟨decRep ((mkCtx times k).n) ++ '-' :: pad8 (hexRep ((mkCtx times k).hash))⟩ := by
  refine ⟨?_, rfl, ?_, rfl⟩
  · simp only [mkCtx, withSession]
    omega
  · simp only [mkCtx, withSession]
    have h1 : 0 ≤ (times k).emod (2 ^ 32) := Int.emod_nonneg _ (by norm_num)
    have h2 : (times k).emod (2 ^ 32) < 2 ^ 32 :=
      Int.emod_lt_of_pos _ (by norm_num)
    omega

/-- Closed witness for the amended C7 at clock readings equal to the
creation index. -/
theorem context_id_monotone_counter_time_salt_witness :
    (mkCtx (fun k => (k : Int)) 0).n < (mkCtx (fun k => (k : Int)) 1).n ∧
    (mkCtx (fun k => (k : Int)) 2).hash = ((2 : Int).emod (2 ^ 32)).toNat ∧
    (mkCtx (fun k => (k : Int)) 2).hash < 2 ^ 32 ∧
    (mkCtx (fun k => (k : Int)) 2).ID =
      ⟨decRep ((mkCtx (fun k => (k : Int)) 2).n) ++
        '-' :: pad8 (hexRep ((mkCtx (fun k => (k : Int)) 2).hash))⟩ :=
  context_id_monotone_counter_time_salt (fun k => (k : Int)) 0 1 2 (by decide)
    (by decide)

end Forwarder

namespace Forwarder

/-- A hijacked session answers every hijack call with an error, unchanged. -/
theorem stepHijack_of_hijacked (s : SessionSt) (c : HijackCall)
    (h : s.hijacked = true) : stepHijack s c = (s, .err) := by
  cases c <;> simp [stepHijack, h]

/-- A successful hijack call leaves the hijacked flag set. -/
theorem stepHijack_ok_sets_flag (s : SessionSt) (c : HijackCall)
    (h : (stepHijack s c).2 = .ok) : (stepHijack s c).1.hijacked = true := by
  obtain ⟨h1, h2, h3⟩ := s
  rcases c with rc | _
  · cases h1 <;> cases h2 <;> cases h3 <;> cases rc <;> simp_all [stepHijack]
  · cases h1 <;> cases h2 <;> cases h3 <;> simp_all [stepHijack]

/-- On a hijacked session every call in a sequence errors. -/
theorem runHijack_of_hijacked (cs : List HijackCall) (s : SessionSt)
    (h : s.hijacked = true) :
    runHijack s cs = List.replicate cs.length HijackOutcome.err := by
  induction cs with
  | nil => rfl
  | cons c cs ih =>
    simp only [runHijack, stepHijack_of_hijacked s c h, List.length_cons,
      List.replicate_succ]
    rw [ih]

/-- Indexing a replicated list below its length. -/
theorem replicate_getElem_some {α : Type} (a : α) :
    ∀ (n m : Nat), m < n → (List.replicate n a)[m]? = some a := by
  intro n
  induction n with
  | zero => intro m h; omega
  | succ n ih =>
    intro m h
    rcases m with _ | m
    · simp [List.replicate_succ]
    · rw [List.replicate_succ, List.getElem?_cons_succ]
      exact ih m (by omega)

/-- C8: once one call to Hijack or HijackResponseWriter on a session has
succeeded, every later call to either entry point on that session returns an
error. -/
theorem hijack_exclusive (s : SessionSt) (calls : List HijackCall) (i j : Nat)
    (hij : i < j) (hjlen : j < calls.length)
    (hok : (runHijack s calls)[i]? = some .ok) :
    (runHijack s calls)[j]? = some .err := by
  induction calls generalizing s i j with
  | nil => simp at hjlen
  | cons c cs ih =>
    rcases j with _ | j
    · omega
    rcases i with _ | i
    · have h0 : (stepHijack s c).2 = .ok := by
        simpa [runHijack] using hok
      have hflag := stepHijack_ok_sets_flag s c h0
      have hrest := runHijack_of_hijacked cs (stepHijack s c).1 hflag
      show ((stepHijack s c).2 :: runHijack (stepHijack s c).1 cs)[j + 1]? =
        some .err
      rw [List.getElem?_cons_succ, hrest]
      exact replicate_getElem_some _ _ _ (by simpa using hjlen)
    · have hok2 : (runHijack (stepHijack s c).1 cs)[i]? = some .ok := by
        simpa [runHijack, List.getElem?_cons_succ] using hok
      have hj2 := ih (stepHijack s c).1 i j (by omega) (by simpa using hjlen) hok2
      show ((stepHijack s c).2 :: runHijack (stepHijack s c).1 cs)[j + 1]? =
        some .err
      rw [List.getElem?_cons_succ]
      exact hj2

/-- Closed witness for C8: on a connection-backed session, the first hijack
succeeds and the third call (of either kind) errors. -/
theorem hijack_exclusive_witness :
    (runHijack ⟨false, true, false⟩
      [.hijack true, .hijackRW, .hijack true])[0]? = some .ok ∧
    (runHijack ⟨false, true, false⟩
      [.hijack true, .hijackRW, .hijack true])[2]? = some .err := by
  constructor
  · decide
  · exact hijack_exclusive ⟨false, true, false⟩
      [.hijack true, .hijackRW, .hijack true] 0 2 (by decide) (by decide)
      (by decide)

end Forwarder
